import Mathlib

/-!
Verification development for the Hermes distributed metadata manager
(`src/metadata_management.cc`, `src/api/bucket.cc`, `src/api/vbucket.h`,
`src/buffer_pool.h`).

The C++ sources are shallowly embedded: 64-bit unsigned values become `Nat`
with explicit `% 2^64` where overflow could matter, signed values become
`Int`, shared-memory mutation becomes explicit state passing on record
types, and the per-node storage layer (which lives in a file not present
in the source tree) is modelled from the specification where a claim
depends on it.  Each modelled-from-spec definition is marked in its doc
comment.
-/

namespace Hermes

/-! ## Configuration constants

The numeric values of the name-size limits live in a header that is not
part of the analysed sources; the boundary theorems below are stated
parametrically in the limit wherever possible, so the concrete values
only feed the closed evaluation theorems. -/

/-- Modelled from the spec: configuration constant `kMaxBucketNameSize`
(declared in a header not under the analysed sources); the spec fixes no
numeric value, only that each name kind has its own maximum. -/
def kMaxBucketNameSize : Nat := 256

/-- Modelled from the spec: configuration constant `kMaxVBucketNameSize`. -/
def kMaxVBucketNameSize : Nat := 256

/-- Modelled from the spec: configuration constant `kMaxBlobNameSize`. -/
def kMaxBlobNameSize : Nat := 64

/-- `kBucketIdStringSize = 2 * sizeof(BucketID)` (spec section 4.E);
`BucketID` is a 64-bit union, so the hex prefix is 16 characters. -/
def kBucketIdStringSize : Nat := 16

/-! ## Name-length validation (`metadata_management.cc` lines 28-54) -/

/-- `IsNameTooLong`: the C++ rejects when `name.size() + 1 >= max`
(the `+ 1` reserves space for the NUL terminator). -/
def IsNameTooLong (name : String) (maxSize : Nat) : Bool :=
  name.length + 1 ≥ maxSize

/-- `IsBlobNameTooLong` from `metadata_management.cc`. -/
def IsBlobNameTooLong (name : String) : Bool :=
  IsNameTooLong name kMaxBlobNameSize

/-- `IsBucketNameTooLong` from `metadata_management.cc`. -/
def IsBucketNameTooLong (name : String) : Bool :=
  IsNameTooLong name kMaxBucketNameSize

/-- `IsVBucketNameTooLong` from `metadata_management.cc`. -/
def IsVBucketNameTooLong (name : String) : Bool :=
  IsNameTooLong name kMaxVBucketNameSize

/-! ## Identifiers

Every Hermes id is a 64-bit union: high 32 bits are the owner node id
(signed for `BlobID`), low 32 bits are an index or offset. -/

/-- `BucketID`: union of `as_int : u64` with bits `{index : u32, node_id : u32}`
(index in the low 32 bits). -/
structure BucketID where
  node_id : Nat
  index : Nat
deriving DecidableEq, Repr

/-- The `as_int` view of a `BucketID` (node id in the high 32 bits). -/
def BucketID.asInt (b : BucketID) : Nat :=
  b.node_id % 2 ^ 32 * 2 ^ 32 + b.index % 2 ^ 32

/-- Rebuild the bit view from a stored 64-bit value. -/
def BucketID.ofInt (v : Nat) : BucketID :=
  ⟨v / 2 ^ 32 % 2 ^ 32, v % 2 ^ 32⟩

/-- The null `BucketID` (`{}` in the C++). -/
def nullBucketId : BucketID := ⟨0, 0⟩

/-- `IsNullBucketId`: a zero `as_int` is the null id. -/
def IsNullBucketId (id : BucketID) : Bool :=
  id.asInt = 0

/-- `BlobID`: the node id is *signed*; a negative node id marks a swap blob.
The low 32 bits are an offset into the owner's buffer-id-list pool. -/
structure BlobID where
  node_id : Int
  buffer_ids_offset : Nat
deriving DecidableEq, Repr

/-- The `as_int` view of a `BlobID` (two's-complement node id in the high
32 bits). -/
def BlobID.asInt (id : BlobID) : Nat :=
  (id.node_id.emod (2 ^ 32)).toNat * 2 ^ 32 + id.buffer_ids_offset % 2 ^ 32

/-- `GetBlobNodeId`: `(u32)abs(id.bits.node_id)`. -/
def GetBlobNodeId (id : BlobID) : Nat :=
  id.node_id.natAbs

/-- `BlobIsInSwap` (`metadata_management.cc` lines 560-564). -/
def BlobIsInSwap (id : BlobID) : Bool :=
  id.node_id < 0

/-- `BufferID`: only its `as_int` view is needed by the embedded code. -/
structure BufferID where
  as_int : Nat
deriving DecidableEq, Repr

/-! ## Internal blob names and the hex prefix
(`metadata_management.cc` lines 167-186 and 295-330) -/

/-- One lowercase hex digit, as produced by `std::hex` with `setfill('0')`. -/
def hexDigitChar (d : Nat) : Char :=
  if d < 10 then Char.ofNat (48 + d) else Char.ofNat (87 + d)

/-- Two hex characters for one byte (`setw(2) << setfill('0')`). -/
def byteToHex (b : Nat) : List Char :=
  [hexDigitChar (b / 16 % 16), hexDigitChar (b % 16)]

/-- The C++ loop walks the little-endian bytes of the 64-bit id from index
`sizeof(BucketID) - 1` down to `0`, so the most significant byte is printed
first; `hexBytesBE k v` renders the low `k` bytes of `v` in that order. -/
def hexBytesBE : Nat → Nat → List Char
  | 0, _ => []
  | k + 1, v => hexBytesBE k (v / 256) ++ byteToHex (v % 256)

/-- `MakeInternalBlobName(name, id)`: the 16-character hex rendering of the
bucket id followed by the external name. -/
def MakeInternalBlobName (name : String) (id : Nat) : String :=
  ⟨hexBytesBE 8 id ++ name.data⟩

/-- The lookup table `hextable` from `metadata_management.cc` lines 295-309,
expressed by the ranges of its non-zero entries: ASCII `'1'..'9'` map to
1..9, `'A'..'F'` to 10..15, `'a'..'f'` to 10..15, everything else to 0. -/
def hextable (c : Char) : Nat :=
  if 49 ≤ c.toNat ∧ c.toNat ≤ 57 then c.toNat - 48
  else if 65 ≤ c.toNat ∧ c.toNat ≤ 70 then c.toNat - 55
  else if 97 ≤ c.toNat ∧ c.toNat ≤ 102 then c.toNat - 87
  else 0

/-- `HexStringToU64`: folds `result = (result << 4) | hextable[s[i]]` over
the first `kBucketIdStringSize` characters; `result` is a `u64`, hence the
explicit `% 2^64`. -/
def HexStringToU64 (s : String) : Nat :=
  (s.data.take kBucketIdStringSize).foldl
    (fun acc c => (acc * 16 + hextable c) % 2 ^ 64) 0

/-! ## Ring topology (`metadata_management.cc` lines 1099-1173)

Targets are left abstract: `GetNodeTargets` consults per-node state that is
opaque to these claims, so the per-node target lists are a parameter
(`nodeTargets`), exactly as the local and remote variants agree. -/

/-- `GetRelativeNodeId`: signed arithmetic on the 1-based node id, wrapping
`num_nodes + 1` to `1` and `0` to `num_nodes`. -/
def GetRelativeNodeId (node_id num_nodes : Nat) (offset : Int) : Nat :=
  let result : Int := (node_id : Int) + offset
  if result > (num_nodes : Int) then 1
  else if result = 0 then num_nodes
  else result.toNat

/-- `GetNextNode`. -/
def GetNextNode (node_id num_nodes : Nat) : Nat :=
  GetRelativeNodeId node_id num_nodes 1

/-- `GetPreviousNode`. -/
def GetPreviousNode (node_id num_nodes : Nat) : Nat :=
  GetRelativeNodeId node_id num_nodes (-1)

/-- `GetNeighborhoodTargets` (`metadata_management.cc` lines 1139-1173):
`switch (num_nodes)` with cases `1` (no neighbours), `2` (one neighbour,
the next node), and default (next node's targets then previous node's).
`num_nodes = 0` falls into the default case, as in the C++ `switch`. -/
def GetNeighborhoodTargets (num_nodes node_id : Nat)
    (nodeTargets : Nat → List Nat) : List Nat :=
  if num_nodes = 1 then []
  else if num_nodes = 2 then nodeTargets (GetNextNode node_id num_nodes)
  else
    nodeTargets (GetNextNode node_id num_nodes) ++
      nodeTargets (GetPreviousNode node_id num_nodes)

/-! ## Per-node metadata storage

The storage layer (`metadata_storage.cc`) is not among the analysed
sources; its map operations are modelled from the spec, section 4.D:
fixed-capacity string → 64-bit-value maps with no eviction, and for the
Blob map a reverse value → key association.  An association list with
newest-first lookup realises exactly the put/get/delete contract the
spec states. -/

/-- Modelled from the spec: `PutToStorage` registers `key → val`. -/
def PutToStorage (m : List (String × Nat)) (key : String) (val : Nat) :
    List (String × Nat) :=
  (key, val) :: m

/-- Modelled from the spec: `GetFromStorage` returns the stored 64-bit
value, or 0 (the null id) when the key is absent. -/
def GetFromStorage (m : List (String × Nat)) (key : String) : Nat :=
  ((m.find? (fun kv => kv.1 = key)).map (fun kv => kv.2)).getD 0

/-- Modelled from the spec: `DeleteFromStorage` removes the key. -/
def DeleteFromStorage (m : List (String × Nat)) (key : String) :
    List (String × Nat) :=
  m.filter (fun kv => kv.1 ≠ key)

/-- Modelled from the spec: `ReverseGetFromStorage` recovers the key mapped
to a given value (Blob map only), or the empty string when none exists. -/
def ReverseGetFromStorage (m : List (String × Nat)) (val : Nat) : String :=
  ((m.find? (fun kv => kv.2 = val)).map (fun kv => kv.1)).getD ""

/-! ## Bucket metadata (`metadata_management.cc` lines 260-511, 787-808,
992-1062)

`BucketInfo.stats` is never read by any embedded operation and is omitted;
every other field of the C++ struct is present. -/

/-- `BucketInfo`: per-slot bucket record in the MDM's info array. -/
structure BucketInfo where
  blobs : List Nat
  ref_count : Int
  active : Bool
  next_free : BucketID
deriving DecidableEq, Repr

/-- Zeroed `BucketInfo` (arena memory before initialization). -/
def BucketInfo.zero : BucketInfo := ⟨[], 0, false, nullBucketId⟩

/-- The bucket-related state of a node's `MetadataManager`: the bucket name
map (storage layer), the `BucketInfo` array, the free-slot list head, and
the slot counters.  The vbucket and blob portions are independent and are
modelled separately where a claim needs them. -/
structure MetadataManager where
  bucketMap : List (String × Nat)
  bucketInfo : List BucketInfo
  first_free_bucket : BucketID
  num_buckets : Nat
  max_buckets : Nat
deriving DecidableEq, Repr

/-- `LocalGetBucketInfoByIndex`: raw array indexing (the C++ performs no
bounds check; out-of-range reads return the zero record here). -/
def LocalGetBucketInfoByIndex (mdm : MetadataManager) (index : Nat) :
    BucketInfo :=
  mdm.bucketInfo.getD index BucketInfo.zero

/-- `LocalGetBucketId`: storage lookup of the name. -/
def LocalGetBucketId (mdm : MetadataManager) (name : String) : BucketID :=
  BucketID.ofInt (GetFromStorage mdm.bucketMap name)

/-- `LocalPutBucketId`. -/
def LocalPutBucketId (mdm : MetadataManager) (name : String) (id : BucketID) :
    MetadataManager :=
  { mdm with bucketMap := PutToStorage mdm.bucketMap name id.asInt }

/-- `LocalIncrementRefcount` (bucket): `ref_count.fetch_add(1)` on the slot
the id's index names. -/
def LocalIncrementRefcount (mdm : MetadataManager) (id : BucketID) :
    MetadataManager :=
  let info := LocalGetBucketInfoByIndex mdm id.index
  { mdm with bucketInfo :=
      mdm.bucketInfo.set id.index { info with ref_count := info.ref_count + 1 } }

/-- `LocalDecrementRefcount` (bucket): `ref_count.fetch_sub(1)`. -/
def LocalDecrementRefcount (mdm : MetadataManager) (id : BucketID) :
    MetadataManager :=
  let info := LocalGetBucketInfoByIndex mdm id.index
  { mdm with bucketInfo :=
      mdm.bucketInfo.set id.index { info with ref_count := info.ref_count - 1 } }

/-- `DecrementRefcount` routes to the owner node; the local and remote
paths are behaviourally identical, so the embedding is the local body. -/
def DecrementRefcount (mdm : MetadataManager) (id : BucketID) :
    MetadataManager :=
  LocalDecrementRefcount mdm id

/-- `LocalGetNextFreeBucketId` (`metadata_management.cc` lines 379-408):
pops the free-slot list head when `num_buckets < max_buckets`, resets the
slot (`blobs`, `ref_count := 1`, `active`), and finally registers the
name → id entry when the result is non-null.  On an exhausted pool the
error is logged and the null id returned with no state change. -/
def LocalGetNextFreeBucketId (mdm : MetadataManager) (name : String) :
    MetadataManager × BucketID :=
  let step :=
    if mdm.num_buckets < mdm.max_buckets then
      let result := mdm.first_free_bucket
      if IsNullBucketId result = false then
        let info := LocalGetBucketInfoByIndex mdm result.index
        ({ mdm with
            bucketInfo := mdm.bucketInfo.set result.index
              { info with blobs := [], ref_count := 1, active := true },
            first_free_bucket := info.next_free,
            num_buckets := mdm.num_buckets + 1 }, result)
      else (mdm, result)
    else (mdm, nullBucketId)
  if IsNullBucketId step.2 = false then
    (LocalPutBucketId step.1 name step.2, step.2)
  else step

/-- `LocalGetOrCreateBucketId` (`metadata_management.cc` lines 410-426):
under the bucket mutex, an existing name is opened (ref-count + 1), an
absent one allocated. -/
def LocalGetOrCreateBucketId (mdm : MetadataManager) (name : String) :
    MetadataManager × BucketID :=
  let result := LocalGetBucketId mdm name
  if result.asInt ≠ 0 then (LocalIncrementRefcount mdm result, result)
  else LocalGetNextFreeBucketId mdm name

/-- The bucket part of `InitMetadataManager` (`metadata_management.cc`
lines 1019-1039): an array of `max_buckets_per_node` inactive slots whose
intrusive `next_free` links chain slot `i` to slot `i + 1`, the last slot
linking to null; `first_free_bucket` points at slot 0. -/
def InitMetadataManager (max_buckets_per_node node_id : Nat) :
    MetadataManager :=
  { bucketMap := []
    bucketInfo := (List.range max_buckets_per_node).map (fun i =>
      { blobs := []
        ref_count := 0
        active := false
        next_free :=
          if i = max_buckets_per_node - 1 then nullBucketId
          else ⟨node_id, i + 1⟩ })
    first_free_bucket := ⟨node_id, 0⟩
    num_buckets := 0
    max_buckets := max_buckets_per_node }

/-- Modelled from the spec: `LocalDestroyBucket` (its body lives in
`metadata_storage.cc`, not among the analysed sources).  Spec sections 3
and 4.E: destruction refuses while the ref-count is positive
(`BUCKET_IN_USE` is reported by the caller); at ref-count zero it releases
the slot onto the free list and deletes the name mapping. -/
def LocalDestroyBucket (mdm : MetadataManager) (name : String)
    (id : BucketID) : MetadataManager × Bool :=
  let info := LocalGetBucketInfoByIndex mdm id.index
  if 0 < info.ref_count then (mdm, false)
  else
    ({ bucketMap := DeleteFromStorage mdm.bucketMap name
       bucketInfo := mdm.bucketInfo.set id.index
         { info with blobs := [], active := false,
                     next_free := mdm.first_free_bucket }
       first_free_bucket := id
       num_buckets := mdm.num_buckets - 1
       max_buckets := mdm.max_buckets }, true)

/-- `DestroyBucket` (`metadata_management.cc` lines 754-766): routes to the
bucket's owner node; local and remote paths are identical. -/
def DestroyBucket (mdm : MetadataManager) (name : String) (id : BucketID) :
    MetadataManager × Bool :=
  LocalDestroyBucket mdm name id

/-! ## The Bucket API handle (`src/api/bucket.cc`) -/

/-- The status values of `api::Status` that the embedded operations can
produce. -/
inductive Status where
  | Success
  | BucketInUse
  | BucketNameTooLong
deriving DecidableEq, Repr

/-- An `api::Bucket` handle: the cached name and id. -/
structure Bucket where
  name : String
  id : BucketID
deriving DecidableEq, Repr

/-- `Bucket::IsValid`: `!IsNullBucketId(id_)`. -/
def Bucket.IsValid (b : Bucket) : Bool :=
  !(IsNullBucketId b.id)

/-- The ref-count the MDM holds for the bucket slot an id names (the value
`info->ref_count.load()` would observe). -/
def refCountOf (mdm : MetadataManager) (id : BucketID) : Int :=
  (LocalGetBucketInfoByIndex mdm id.index).ref_count

/-- `Bucket::Bucket` (`bucket.cc` lines 26-41): rejects an over-long name
before touching shared state (the C++ throws; here the null-id handle and
the error are returned), otherwise opens or creates the bucket. -/
def Bucket.mkBucket (mdm : MetadataManager) (initial_name : String) :
    MetadataManager × Bucket × Status :=
  if IsBucketNameTooLong initial_name then
    (mdm, ⟨initial_name, nullBucketId⟩, Status.BucketNameTooLong)
  else
    let r := LocalGetOrCreateBucketId mdm initial_name
    (r.1, ⟨initial_name, r.2⟩, Status.Success)

/-- `Bucket::Close` (`bucket.cc` lines 216-227): a valid handle decrements
the bucket's ref-count and nulls its own id; an invalid handle does
nothing. -/
def Bucket.Close (b : Bucket) (mdm : MetadataManager) :
    Bucket × MetadataManager :=
  if b.IsValid then (⟨b.name, nullBucketId⟩, DecrementRefcount mdm b.id)
  else (b, mdm)

/-- `Bucket::Destroy` (`bucket.cc` lines 229-247): on a valid handle, asks
the MDM to destroy; success nulls the handle id, refusal reports
`BUCKET_IN_USE` and leaves everything as it was. -/
def Bucket.Destroy (b : Bucket) (mdm : MetadataManager) :
    Bucket × MetadataManager × Status :=
  if b.IsValid then
    let r := DestroyBucket mdm b.name b.id
    if r.2 then (⟨b.name, nullBucketId⟩, r.1, Status.Success)
    else (b, r.1, Status.BucketInUse)
  else (b, mdm, Status.Success)

/-- Iterate `LocalGetOrCreateBucketId` over a list of names in order,
collecting the returned ids (the shape of the exhaustion scenario in the
spec's seed tests). -/
def createMany : MetadataManager → List String → MetadataManager × List BucketID
  | mdm, [] => (mdm, [])
  | mdm, n :: rest =>
    let r := LocalGetOrCreateBucketId mdm n
    let rr := createMany r.1 rest
    (rr.1, r.2 :: rr.2)

/-- The bucket state of a node that was initialized with `max_buckets = maxB`
on node `node` and has since allocated slots `0 .. k-1` in order: slots
below `k` are active with ref-count 1, the rest still carry their
initialization-time free-list links, and the free list continues at slot
`k`; `m` is the accumulated name map. `InitMetadataManager maxB node`
equals `MidState maxB node 0 []` whenever `maxB > 0`. -/
def MidState (maxB node k : Nat) (m : List (String × Nat)) :
    MetadataManager :=
  { bucketMap := m
    bucketInfo := (List.range maxB).map (fun i =>
      { blobs := []
        ref_count := if i < k then 1 else 0
        active := if i < k then true else false
        next_free :=
          if i = maxB - 1 then nullBucketId else ⟨node, i + 1⟩ })
    first_free_bucket := if k < maxB then ⟨node, k⟩ else nullBucketId
    num_buckets := k
    max_buckets := maxB }

/-! ## Distributed blob directory (`metadata_management.cc` lines 84-293,
544-634)

The sharding rule (`HashStringForStorage(name) mod num_nodes`, spec
section 4.E) and the storage primitives live outside the analysed
sources and are modelled from the spec; every routing decision
(`HashString`, `GetBlobNodeId`, local-versus-remote) is taken verbatim
from `metadata_management.cc`, and the local and remote variants of each
operation are behaviourally identical, so a single cluster-level function
embeds both paths. -/

/-- The blob-directory state of one node: the Blob string → id map (with
its reverse association), the buffer-id-list pool (a `BlobID`'s
`buffer_ids_offset` indexes it), and the per-bucket-slot blob lists. -/
structure BlobNode where
  blobMap : List (String × Nat)
  bufferIdLists : List (List BufferID)
  bucketBlobs : List (List Nat)
deriving DecidableEq, Repr

/-- A node with no blob metadata. -/
def BlobNode.empty : BlobNode := ⟨[], [], []⟩

/-- An installation: node `n` (1-based) is `nodes[n - 1]`. -/
structure Cluster where
  nodes : List BlobNode
deriving DecidableEq, Repr

/-- Number of nodes in the installation. -/
def Cluster.numNodes (c : Cluster) : Nat := c.nodes.length

/-- Read node `n` (1-based). -/
def Cluster.node (c : Cluster) (n : Nat) : BlobNode :=
  c.nodes.getD (n - 1) BlobNode.empty

/-- Replace node `n` (1-based). -/
def Cluster.setNode (c : Cluster) (n : Nat) (node : BlobNode) : Cluster :=
  ⟨c.nodes.set (n - 1) node⟩

/-- Modelled from the spec: `HashStringForStorage` — the target shard of a
key is its hash modulo the node count (spec section 4.E); node ids are
1-based.  The hash function itself is an opaque parameter. -/
def HashStringForStorage (hashFn : String → Nat) (numNodes : Nat)
    (s : String) : Nat :=
  hashFn s % numNodes + 1

/-- `HashString` just forwards to the storage hash. -/
def HashString (hashFn : String → Nat) (numNodes : Nat) (s : String) : Nat :=
  HashStringForStorage hashFn numNodes s

/-- `PutId`: the name → id entry is stored on the hash owner of the key
(locally or by `RemotePut`, which run the same body). -/
def PutId (hashFn : String → Nat) (c : Cluster) (name : String) (id : Nat) :
    Cluster :=
  let target := HashString hashFn c.numNodes name
  c.setNode target
    { c.node target with blobMap := PutToStorage (c.node target).blobMap name id }

/-- `PutBlobId` (`metadata_management.cc` lines 227-231): the key is the
*internal* name `hex(bucket_id) || name`. -/
def PutBlobId (hashFn : String → Nat) (c : Cluster) (name : String)
    (id : BlobID) (bucket_id : BucketID) : Cluster :=
  PutId hashFn c (MakeInternalBlobName name bucket_id.asInt) id.asInt

/-- `GetId`: lookup on the hash owner of the key. -/
def GetId (hashFn : String → Nat) (c : Cluster) (name : String) : Nat :=
  GetFromStorage (c.node (HashString hashFn c.numNodes name)).blobMap name

/-- `GetBlobId` (`metadata_management.cc` lines 188-195). -/
def GetBlobId (hashFn : String → Nat) (c : Cluster) (name : String)
    (bucket_id : BucketID) : BlobID :=
  let v := GetId hashFn c (MakeInternalBlobName name bucket_id.asInt)
  ⟨Int.subNatNat (v / 2 ^ 32 % 2 ^ 32) 0, v % 2 ^ 32⟩

/-- Modelled from the spec: `LocalAllocateBufferIdList` places the list in
the owner's buffer-id-list pool and returns the offset that the `BlobID`
will carry (spec sections 3 and 4.E). -/
def LocalAllocateBufferIdList (node : BlobNode) (ids : List BufferID) :
    BlobNode × Nat :=
  ({ node with bufferIdLists := node.bufferIdLists ++ [ids] },
    node.bufferIdLists.length)

/-- `AllocateBufferIdList` (`metadata_management.cc` lines 544-558): runs
on `target_node`, locally or via `RemoteAllocateBufferIdList`. -/
def AllocateBufferIdList (c : Cluster) (target_node : Nat)
    (ids : List BufferID) : Cluster × Nat :=
  let r := LocalAllocateBufferIdList (c.node target_node) ids
  (c.setNode target_node r.1, r.2)

/-- Modelled from the spec: `LocalAddBlobIdToBucket` appends the blob id to
the bucket's blob list (spec section 4.E). -/
def LocalAddBlobIdToBucket (node : BlobNode) (bucket_id : BucketID)
    (blob_id : BlobID) : BlobNode :=
  let blobs := (node.bucketBlobs.getD bucket_id.index []) ++ [blob_id.asInt]
  { node with bucketBlobs := node.bucketBlobs.set bucket_id.index blobs }

/-- `AddBlobIdToBucket` (`metadata_management.cc` lines 520-530): runs on
`bucket_id.bits.node_id`. -/
def AddBlobIdToBucket (c : Cluster) (blob_id : BlobID)
    (bucket_id : BucketID) : Cluster :=
  c.setNode bucket_id.node_id
    (LocalAddBlobIdToBucket (c.node bucket_id.node_id) bucket_id blob_id)

/-- `AttachBlobToBucket` (`metadata_management.cc` lines 619-634): hashes
the *external* blob name to pick `target_node`, allocates the buffer-id
list there, synthesizes the `BlobID` (negated node id for a swap blob),
registers the internal name → id entry, and appends the id to the bucket's
blob list. -/
def AttachBlobToBucket (hashFn : String → Nat) (c : Cluster)
    (blob_name : String) (bucket_id : BucketID)
    (buffer_ids : List BufferID) (is_swap_blob : Bool) : Cluster × BlobID :=
  let target_node := HashString hashFn c.numNodes blob_name
  let alloc := AllocateBufferIdList c target_node buffer_ids
  let blob_id : BlobID :=
    ⟨if is_swap_blob then -(target_node : Int) else (target_node : Int),
      alloc.2⟩
  let c2 := PutBlobId hashFn alloc.1 blob_name blob_id bucket_id
  (AddBlobIdToBucket c2 blob_id bucket_id, blob_id)

/-- `LocalGetBlobNameFromId` (`metadata_management.cc` lines 267-279):
reverse lookup of the internal name, then strip the
`kBucketIdStringSize`-character hex prefix. -/
def LocalGetBlobNameFromId (node : BlobNode) (blob_id : BlobID) : String :=
  let blob_name := ReverseGetFromStorage node.blobMap blob_id.asInt
  if blob_name.length > kBucketIdStringSize then
    ⟨blob_name.data.drop kBucketIdStringSize⟩
  else ""

/-- `GetBlobNameFromId` (`metadata_management.cc` lines 281-293): consults
the node named by the `BlobID` (absolute value of its signed node id). -/
def GetBlobNameFromId (c : Cluster) (blob_id : BlobID) : String :=
  LocalGetBlobNameFromId (c.node (GetBlobNodeId blob_id)) blob_id

/-! ## Swap blobs (`metadata_management.cc` lines 946-990) -/

/-- The order of the `SwapBlobMembers` enumeration, modelled from the spec
(section 4.C swap fallback: a `SwapBlob{node, offset, size, bucket}` record
packed into a 4-entry BufferID list). -/
def SwapBlobMembers_NodeId : Nat := 0

/-- Index of the offset member. -/
def SwapBlobMembers_Offset : Nat := 1

/-- Index of the size member. -/
def SwapBlobMembers_Size : Nat := 2

/-- Index of the bucket-id member. -/
def SwapBlobMembers_BucketId : Nat := 3

/-- Number of `SwapBlob` members. -/
def SwapBlobMembers_Count : Nat := 4

/-- `SwapBlob`: node (u32), offset and size (u64), owning bucket. -/
structure SwapBlob where
  node_id : Nat
  offset : Nat
  size : Nat
  bucket_id : BucketID
deriving DecidableEq, Repr

/-- The zero `SwapBlob` (`SwapBlob result = {}`). -/
def SwapBlob.zero : SwapBlob := ⟨0, 0, 0, nullBucketId⟩

/-- `SwapBlobToVec`: each member is stored into the `as_int` (u64) of one
`BufferID`, at the index its enumerator names. -/
def SwapBlobToVec (swap_blob : SwapBlob) : List BufferID :=
  [⟨swap_blob.node_id % 2 ^ 64⟩,
   ⟨swap_blob.offset % 2 ^ 64⟩,
   ⟨swap_blob.size % 2 ^ 64⟩,
   ⟨swap_blob.bucket_id.asInt % 2 ^ 64⟩]

/-- `VecToSwapBlob`: a vector of exactly `SwapBlobMembers_Count` entries is
unpacked (`node_id` through a `(u32)` truncation); any other length is the
unimplemented error path, which leaves the zero record. -/
def VecToSwapBlob (vec : List BufferID) : SwapBlob :=
  match vec with
  | [n, o, s, b] =>
    { node_id := n.as_int % 2 ^ 32
      offset := o.as_int
      size := s.as_int
      bucket_id := BucketID.ofInt b.as_int }
  | _ => SwapBlob.zero

/-! ## System view state (`metadata_management.cc` lines 868-903) -/

/-- The capacity-adjustment counters of a node's `BufferPool`: one atomic
`i64` per device. -/
structure BufferPoolView where
  capacity_adjustments : List Int
deriving DecidableEq, Repr

/-- `SystemViewState`: one atomic `u64` of bytes available per device
(`num_devices` is the list length). -/
structure SystemViewState where
  bytes_available : List Nat
deriving DecidableEq, Repr

/-- `fetch_add` of a signed delta on an atomic `u64`: two's-complement
wrap-around. -/
def fetchAddU64 (b : Nat) (a : Int) : Nat :=
  (((b : Int) + a).emod (2 ^ 64)).toNat

/-- The loop body of `LocalUpdateGlobalSystemViewState`: device `i` gets
`fetch_add(adjustments[i])` when the adjustment is non-zero. -/
def applyAdjustments : List Nat → List Int → List Nat
  | bs, [] => bs
  | [], _ => []
  | b :: bs, a :: as' =>
    (if a ≠ 0 then fetchAddU64 b a else b) :: applyAdjustments bs as'

/-- `LocalUpdateGlobalSystemViewState` (`metadata_management.cc` lines
868-878). -/
def LocalUpdateGlobalSystemViewState (state : SystemViewState)
    (adjustments : List Int) : SystemViewState :=
  ⟨applyAdjustments state.bytes_available adjustments⟩

/-- `UpdateGlobalSystemViewState` (`metadata_management.cc` lines 880-903):
atomically exchanges every per-device adjustment for 0; if any was
non-zero the delta vector is applied
(`LocalUpdateGlobalSystemViewState`, locally or via the identical
`RemoteUpdateGlobalSystemViewState`), otherwise no update is sent. -/
def UpdateGlobalSystemViewState (pool : BufferPoolView)
    (global : SystemViewState) : BufferPoolView × SystemViewState :=
  let adjustments := pool.capacity_adjustments
  let pool' : BufferPoolView :=
    ⟨List.replicate adjustments.length 0⟩
  let update_needed := adjustments.any (fun a => a ≠ 0)
  if update_needed then
    (pool', LocalUpdateGlobalSystemViewState global adjustments)
  else (pool', global)

/-! # Theorems -/

/-! ## Helper lemmas on the hex encoding -/

theorem hextable_hexDigitChar (d : Nat) (hd : d < 16) :
    hextable (hexDigitChar d) = d := by
  interval_cases d <;> rfl

theorem hexBytesBE_length (k v : Nat) : (hexBytesBE k v).length = 2 * k := by
  induction k generalizing v with
  | zero => rfl
  | succ k ih =>
    simp only [hexBytesBE, List.length_append, ih, byteToHex,
      List.length_cons, List.length_nil]
    omega

theorem foldl_byteToHex (a b : Nat) (h : a * 256 + 255 < 2 ^ 64) :
    (byteToHex b).foldl (fun acc c => (acc * 16 + hextable c) % 2 ^ 64) a
      = a * 256 + b % 256 := by
  have h1 : b / 16 % 16 < 16 := Nat.mod_lt _ (by norm_num)
  have h2 : b % 16 < 16 := Nat.mod_lt _ (by norm_num)
  simp only [byteToHex, List.foldl_cons, List.foldl_nil,
    hextable_hexDigitChar _ h1, hextable_hexDigitChar _ h2]
  rw [Nat.mod_eq_of_lt (a := a * 16 + b / 16 % 16) (by omega),
    Nat.mod_eq_of_lt (by omega)]
  have hsplit : b % 256 = b % 16 + 16 * (b / 16 % 16) := by
    rw [show (256 : Nat) = 16 * 16 from rfl, Nat.mod_mul]
  omega

theorem foldl_hexBytesBE (k : Nat) :
    ∀ a v : Nat, a * 256 ^ k + 256 ^ k ≤ 2 ^ 64 →
      (hexBytesBE k v).foldl (fun acc c => (acc * 16 + hextable c) % 2 ^ 64) a
        = a * 256 ^ k + v % 256 ^ k := by
  induction k with
  | zero => intro a v _; simp [hexBytesBE, Nat.mod_one]
  | succ k ih =>
    intro a v h
    have hpow : (256 : Nat) ^ (k + 1) = 256 ^ k * 256 := pow_succ 256 k
    have hgrow : a * 256 ^ k + 256 ^ k ≤ a * 256 ^ (k + 1) + 256 ^ (k + 1) := by
      have h16 : (256 : Nat) ^ k ≤ 256 ^ (k + 1) :=
        Nat.pow_le_pow_right (by norm_num) (by omega)
      have := Nat.mul_le_mul_left a h16
      omega
    rw [hexBytesBE, List.foldl_append, ih a (v / 256) (le_trans hgrow h)]
    have hm : v / 256 % 256 ^ k < 256 ^ k :=
      Nat.mod_lt _ (Nat.pos_pow_of_pos k (by norm_num))
    have hA : (a * 256 ^ k + v / 256 % 256 ^ k) * 256 + 255 < 2 ^ 64 := by
      have hh : a * 256 ^ k * 256 + 256 ^ k * 256 ≤ 2 ^ 64 := by
        rw [hpow] at h
        calc a * 256 ^ k * 256 + 256 ^ k * 256
            = a * (256 ^ k * 256) + 256 ^ k * 256 := by ring
          _ ≤ 2 ^ 64 := h
      generalize a * 256 ^ k = A at *
      generalize (256 : Nat) ^ k = P at *
      omega
    rw [foldl_byteToHex _ _ hA]
    have hmod : v % 256 ^ (k + 1) = v % 256 + 256 * (v / 256 % 256 ^ k) := by
      rw [show (256 : Nat) ^ (k + 1) = 256 * 256 ^ k by ring, Nat.mod_mul]
    have hv : v % 256 % 256 = v % 256 := Nat.mod_mod_of_dvd v dvd_rfl
    have hexp : a * 256 ^ (k + 1) = a * 256 ^ k * 256 := by rw [hpow]; ring
    generalize hA1 : a * 256 ^ (k + 1) = A1 at *
    generalize a * 256 ^ k = A at *
    generalize v / 256 % 256 ^ k = m at *
    omega

/-! ## C1: name-length validation boundary -/

/-- C1 (counterexample): the claim states a bucket name of exactly
`kMaxBucketNameSize - 1` bytes is accepted; the code rejects it, because
`IsNameTooLong` compares `name.size() + 1 >= max` to reserve the NUL byte.
Concretely a 255-character name (`kMaxBucketNameSize - 1 = 255`) is
reported too long. -/
theorem C1_boundary_counterexample :
    IsBucketNameTooLong (String.mk (List.replicate (kMaxBucketNameSize - 1) 'a'))
      = true ∧ kMaxBucketNameSize - 1 = 255 := by
  constructor
  · have h : (String.mk (List.replicate (kMaxBucketNameSize - 1) 'a')).length
        = 255 := by
      show (List.replicate (kMaxBucketNameSize - 1) 'a').length = 255
      rw [List.length_replicate]
      rfl
    unfold IsBucketNameTooLong IsNameTooLong
    rw [h]
    decide
  · rfl

/-- C1 (amended): the accept/reject boundary sits one byte lower than
claimed: a name is accepted exactly when its length is at most
`kMax*NameSize - 2`, so a name of `kMax*NameSize - 1` bytes is already
rejected with the name-too-long error; the same shifted boundary holds for
bucket, vbucket and blob names against their respective maxima. -/
theorem C1_name_length_boundary (name : String) :
    (IsBucketNameTooLong name = false ↔ name.length ≤ kMaxBucketNameSize - 2) ∧
    (IsVBucketNameTooLong name = false ↔ name.length ≤ kMaxVBucketNameSize - 2) ∧
    (IsBlobNameTooLong name = false ↔ name.length ≤ kMaxBlobNameSize - 2) := by
  refine ⟨?_, ?_, ?_⟩ <;>
    simp [IsBucketNameTooLong, IsVBucketNameTooLong, IsBlobNameTooLong,
      IsNameTooLong, kMaxBucketNameSize, kMaxVBucketNameSize,
      kMaxBlobNameSize] <;>
    omega

/-! ## C4: internal blob names round-trip through the hex prefix -/

/-- C4: for every bucket id `b` (a 64-bit value) and every blob name,
`MakeInternalBlobName` splits back into its components: `HexStringToU64`
recovers `b` exactly from the internal name, and the characters after the
`kBucketIdStringSize`-character hex prefix are exactly the external
name. -/
theorem C4_internal_name_roundtrip (name : String) (b : Nat)
    (hb : b < 2 ^ 64) :
    HexStringToU64 (MakeInternalBlobName name b) = b ∧
    (MakeInternalBlobName name b).data.drop kBucketIdStringSize
      = name.data := by
  have hlen : (hexBytesBE 8 b).length = 16 := by rw [hexBytesBE_length]
  constructor
  · show ((hexBytesBE 8 b ++ name.data).take kBucketIdStringSize).foldl _ 0 = b
    rw [show kBucketIdStringSize = (hexBytesBE 8 b).length from hlen.symm,
      List.take_left]
    rw [foldl_hexBytesBE 8 0 b (by norm_num)]
    have h8 : (256 : Nat) ^ 8 = 2 ^ 64 := by norm_num
    rw [h8]
    omega
  · show (hexBytesBE 8 b ++ name.data).drop kBucketIdStringSize = name.data
    rw [show kBucketIdStringSize = (hexBytesBE 8 b).length from hlen.symm,
      List.drop_left]

/-- C4 witness: the round-trip evaluated at the bucket id with node 1 and
index 2 and the blob name "data". -/
theorem C4_internal_name_roundtrip_witness :
    (4294967298 : Nat) < 2 ^ 64 ∧
    (HexStringToU64 (MakeInternalBlobName "data" 4294967298) = 4294967298 ∧
      (MakeInternalBlobName "data" 4294967298).data.drop kBucketIdStringSize
        = "data".data) :=
  ⟨by norm_num, C4_internal_name_roundtrip "data" 4294967298 (by norm_num)⟩

/-! ## C3: neighborhood targets -/

theorem GetNextNode_eq (node_id num_nodes : Nat) (h1 : 1 ≤ node_id)
    (h2 : node_id ≤ num_nodes) :
    GetNextNode node_id num_nodes = node_id % num_nodes + 1 := by
  simp only [GetNextNode, GetRelativeNodeId]
  rcases Nat.lt_or_ge node_id num_nodes with h | h
  · rw [if_neg (by omega), if_neg (by omega), Nat.mod_eq_of_lt h]
    omega
  · have heq : node_id = num_nodes := le_antisymm h2 h
    subst heq
    rw [if_pos (by omega), Nat.mod_self]

theorem GetPreviousNode_eq (node_id num_nodes : Nat) (h1 : 1 ≤ node_id)
    (h2 : node_id ≤ num_nodes) :
    GetPreviousNode node_id num_nodes
      = (node_id + num_nodes - 2) % num_nodes + 1 := by
  simp only [GetPreviousNode, GetRelativeNodeId]
  rcases eq_or_lt_of_le h1 with h | h
  · subst h
    rw [if_neg (by omega), if_pos (by omega), Nat.mod_eq_of_lt (by omega)]
    omega
  · rw [if_neg (by omega), if_neg (by omega),
      show node_id + num_nodes - 2 = (node_id - 2) + num_nodes by omega,
      Nat.add_mod_right, Nat.mod_eq_of_lt (by omega)]
    omega

/-- C3 (counterexample): the claim states the result contains the caller's
own targets; with 3 nodes whose target lists are `[1]`, `[2]`, `[3]`,
node 1 gets `[2, 3]` — the next and previous nodes' targets only, its own
target `1` missing. -/
theorem C3_own_targets_counterexample :
    GetNeighborhoodTargets 3 1 (fun i => [i]) = [2, 3] ∧
    ¬ 1 ∈ GetNeighborhoodTargets 3 1 (fun i => [i]) := by
  have h : GetNeighborhoodTargets 3 1 (fun i => [i]) = [2, 3] := rfl
  exact ⟨h, by rw [h]; decide⟩

/-- C3 (amended): `GetNeighborhoodTargets` returns the targets of the next
node followed by those of the previous node in the ring (wrapping at node
1 and node `num_nodes`), and *not* the caller's own targets; with 2 nodes
only the single neighbour (the next node) is consulted, and with 1 node
the result is empty. -/
theorem C3_neighborhood_targets (num_nodes node_id : Nat)
    (t : Nat → List Nat) (h1 : 1 ≤ node_id) (h2 : node_id ≤ num_nodes) :
    (num_nodes = 1 → GetNeighborhoodTargets num_nodes node_id t = []) ∧
    (num_nodes = 2 →
      GetNeighborhoodTargets num_nodes node_id t = t (node_id % 2 + 1)) ∧
    (3 ≤ num_nodes →
      GetNeighborhoodTargets num_nodes node_id t
        = t (node_id % num_nodes + 1)
            ++ t ((node_id + num_nodes - 2) % num_nodes + 1)) := by
  refine ⟨?_, ?_, ?_⟩
  · intro h
    subst h
    rfl
  · intro h
    subst h
    unfold GetNeighborhoodTargets
    rw [if_neg (by omega : ¬(2 : Nat) = 1), if_pos rfl,
      GetNextNode_eq _ _ h1 h2]
  · intro h
    unfold GetNeighborhoodTargets
    rw [if_neg (by omega : ¬num_nodes = 1), if_neg (by omega : ¬num_nodes = 2),
      GetNextNode_eq _ _ h1 h2, GetPreviousNode_eq _ _ h1 h2]

/-- C3 witness: node 4 in a 4-node ring sees node 1 (next, wrapped) and
node 3 (previous). -/
theorem C3_neighborhood_targets_witness :
    (1 ≤ 4 ∧ 4 ≤ 4) ∧
    ((4 = 1 → GetNeighborhoodTargets 4 4 (fun i => [10 * i]) = []) ∧
     (4 = 2 →
       GetNeighborhoodTargets 4 4 (fun i => [10 * i]) = [10 * (4 % 2 + 1)]) ∧
     (3 ≤ 4 →
       GetNeighborhoodTargets 4 4 (fun i => [10 * i])
         = [10 * (4 % 4 + 1)] ++ [10 * ((4 + 4 - 2) % 4 + 1)])) :=
  ⟨⟨by decide, by decide⟩,
    C3_neighborhood_targets 4 4 (fun i => [10 * i]) (by decide) (by decide)⟩

/-! ## Helper lemmas on identifiers -/

theorem BucketID.asInt_lt (b : BucketID) : b.asInt < 2 ^ 64 := by
  unfold BucketID.asInt
  have h1 : b.node_id % 2 ^ 32 < 2 ^ 32 := Nat.mod_lt _ (by norm_num)
  have h2 : b.index % 2 ^ 32 < 2 ^ 32 := Nat.mod_lt _ (by norm_num)
  omega

theorem BucketID.ofInt_asInt (b : BucketID) (h1 : b.node_id < 2 ^ 32)
    (h2 : b.index < 2 ^ 32) : BucketID.ofInt b.asInt = b := by
  obtain ⟨n, i⟩ := b
  simp only [BucketID.ofInt, BucketID.asInt] at *
  rw [Nat.mod_eq_of_lt h1, Nat.mod_eq_of_lt h2]
  have hdiv : (n * 2 ^ 32 + i) / 2 ^ 32 = n := by
    rw [Nat.add_comm, Nat.mul_comm, Nat.add_mul_div_left _ _ (by norm_num),
      Nat.div_eq_of_lt h2]
    omega
  have hmod : (n * 2 ^ 32 + i) % 2 ^ 32 = i := by
    rw [Nat.add_comm, Nat.mul_comm, Nat.add_mul_mod_self_left,
      Nat.mod_eq_of_lt h2]
  rw [hdiv, hmod, Nat.mod_eq_of_lt h1]

/-! ## C8: swap blobs -/

/-- C8: a well-formed `SwapBlob` (fields within their C++ integer types)
packs into a BufferID list of length exactly `SwapBlobMembers_Count`, and
`VecToSwapBlob (SwapBlobToVec s) = s` — node, offset, size and bucket all
round-trip; moreover the `BlobID` that `AttachBlobToBucket` synthesizes is
recognized by `BlobIsInSwap` exactly when the blob was attached as a swap
blob (negative node id). -/
theorem C8_swap_blob_roundtrip (s : SwapBlob)
    (hn : s.node_id < 2 ^ 32) (ho : s.offset < 2 ^ 64) (hs : s.size < 2 ^ 64)
    (hb1 : s.bucket_id.node_id < 2 ^ 32) (hb2 : s.bucket_id.index < 2 ^ 32) :
    (SwapBlobToVec s).length = SwapBlobMembers_Count ∧
    VecToSwapBlob (SwapBlobToVec s) = s ∧
    (∀ (hashFn : String → Nat) (c : Cluster) (name : String)
        (bucket : BucketID) (ids : List BufferID) (is_swap : Bool),
      BlobIsInSwap (AttachBlobToBucket hashFn c name bucket ids is_swap).2
        = is_swap) := by
  refine ⟨rfl, ?_, ?_⟩
  · obtain ⟨n, o, sz, b⟩ := s
    simp only at hn ho hs hb1 hb2
    simp only [SwapBlobToVec, VecToSwapBlob, SwapBlob.mk.injEq]
    refine ⟨by omega, by omega, by omega, ?_⟩
    rw [Nat.mod_eq_of_lt (BucketID.asInt_lt b)]
    exact BucketID.ofInt_asInt b hb1 hb2
  · intro hashFn c name bucket ids is_swap
    simp only [AttachBlobToBucket, BlobIsInSwap, HashString,
      HashStringForStorage]
    generalize hashFn name % c.numNodes = t
    cases is_swap
    · simp
      omega
    · simp
      omega

/-- C8 witness: the round-trip evaluated on the swap record
`{node 2, offset 4096, size 100, bucket {node 1, index 3}}`. -/
theorem C8_swap_blob_roundtrip_witness :
    ((2 : Nat) < 2 ^ 32 ∧ (4096 : Nat) < 2 ^ 64 ∧ (100 : Nat) < 2 ^ 64 ∧
      (1 : Nat) < 2 ^ 32 ∧ (3 : Nat) < 2 ^ 32) ∧
    ((SwapBlobToVec ⟨2, 4096, 100, ⟨1, 3⟩⟩).length = SwapBlobMembers_Count ∧
      VecToSwapBlob (SwapBlobToVec ⟨2, 4096, 100, ⟨1, 3⟩⟩)
        = ⟨2, 4096, 100, ⟨1, 3⟩⟩ ∧
      (∀ (hashFn : String → Nat) (c : Cluster) (name : String)
          (bucket : BucketID) (ids : List BufferID) (is_swap : Bool),
        BlobIsInSwap (AttachBlobToBucket hashFn c name bucket ids is_swap).2
          = is_swap)) :=
  ⟨⟨by norm_num, by norm_num, by norm_num, by norm_num, by norm_num⟩,
    C8_swap_blob_roundtrip ⟨2, 4096, 100, ⟨1, 3⟩⟩ (by norm_num) (by norm_num)
      (by norm_num) (by norm_num) (by norm_num)⟩

/-! ## C9: global system view reconciliation -/

theorem applyAdjustments_length (bs : List Nat) (as' : List Int) :
    (applyAdjustments bs as').length = bs.length := by
  induction bs generalizing as' with
  | nil => cases as' <;> rfl
  | cons b bs ih =>
    cases as' with
    | nil => rfl
    | cons a as' => simp [applyAdjustments, ih]

theorem getD_replicate_zero (n i : Nat) :
    (List.replicate n (0 : Int)).getD i 0 = 0 := by
  induction n generalizing i with
  | zero => rfl
  | succ n ih =>
    cases i with
    | zero => rfl
    | succ i => simp [List.replicate_succ, List.getD_cons_succ, ih]

theorem applyAdjustments_modeq (bs : List Nat) (as' : List Int) (i : Nat)
    (hi : i < bs.length) (hlen : bs.length = as'.length) :
    Int.ModEq (2 ^ 64) ((applyAdjustments bs as').getD i 0)
      ((bs.getD i 0 : Int) + as'.getD i 0) := by
  induction bs generalizing as' i with
  | nil => simp at hi
  | cons b bs ih =>
    cases as' with
    | nil => simp at hlen
    | cons a as' =>
      cases i with
      | zero =>
        simp only [applyAdjustments, List.getD_cons_zero]
        by_cases ha : a = 0
        · subst ha
          simp [Int.ModEq.refl]
        · rw [if_pos (by simpa using ha)]
          unfold fetchAddU64
          have hnn : 0 ≤ ((b : Int) + a).emod (2 ^ 64) :=
            Int.emod_nonneg _ (by norm_num)
          rw [Int.toNat_of_nonneg hnn]
          exact Int.emod_emod_of_dvd _ dvd_rfl
      | succ i =>
        simp only [applyAdjustments, List.getD_cons_succ]
        exact ih as' i (by simpa using hi) (by simpa using hlen)

/-- C9: a `UpdateGlobalSystemViewState` call exchanges every per-device
adjustment counter for 0 and applies exactly the exchanged values to the
global state's `bytes_available` by `fetch_add` (u64 wrap-around), so per
device the sum `bytes_available + pending adjustment` is preserved modulo
2^64; when every adjustment is zero no update is sent and the global state
is returned untouched. -/
theorem C9_system_view_update (pool : BufferPoolView) (gs : SystemViewState)
    (hlen : pool.capacity_adjustments.length = gs.bytes_available.length) :
    ((UpdateGlobalSystemViewState pool gs).1.capacity_adjustments
        = List.replicate pool.capacity_adjustments.length 0) ∧
    (∀ i, i < gs.bytes_available.length →
      Int.ModEq (2 ^ 64)
        (((UpdateGlobalSystemViewState pool gs).2.bytes_available.getD i 0 : Int)
          + (UpdateGlobalSystemViewState pool gs).1.capacity_adjustments.getD i 0)
        ((gs.bytes_available.getD i 0 : Int)
          + pool.capacity_adjustments.getD i 0)) ∧
    ((∀ a ∈ pool.capacity_adjustments, a = 0) →
      (UpdateGlobalSystemViewState pool gs).2 = gs) := by
  unfold UpdateGlobalSystemViewState
  by_cases hneed : pool.capacity_adjustments.any (fun a => a ≠ 0)
  · rw [if_pos hneed]
    refine ⟨rfl, ?_, ?_⟩
    · intro i hi
      simp only [getD_replicate_zero, add_zero]
      exact applyAdjustments_modeq gs.bytes_available
        pool.capacity_adjustments i hi hlen.symm
    · intro hz
      exfalso
      rcases List.any_eq_true.mp hneed with ⟨a, ha, hne⟩
      have hane : a ≠ 0 := by simpa using hne
      exact hane (hz a ha)
  · rw [if_neg hneed]
    refine ⟨rfl, ?_, fun _ => rfl⟩
    intro i hi
    simp only [getD_replicate_zero, add_zero]
    have hz : ∀ a ∈ pool.capacity_adjustments, a = 0 := by
      intro a ha
      by_contra hne
      exact hneed (List.any_eq_true.mpr ⟨a, ha, by simpa using hne⟩)
    have hlt : i < pool.capacity_adjustments.length := by omega
    have hz0 : pool.capacity_adjustments.getD i 0 = 0 := by
      rw [List.getD_eq_getElem pool.capacity_adjustments 0 hlt]
      exact hz _ (List.getElem_mem _)
    rw [hz0, add_zero]

/-- C9 witness: node with pending adjustments `[-5, 0]` against a global
view `[100, 200]`. -/
theorem C9_system_view_update_witness :
    ((BufferPoolView.mk [-5, 0]).capacity_adjustments.length
        = (SystemViewState.mk [100, 200]).bytes_available.length) ∧
    (((UpdateGlobalSystemViewState ⟨[-5, 0]⟩
          ⟨[100, 200]⟩).1.capacity_adjustments
        = List.replicate (BufferPoolView.mk
            [-5, 0]).capacity_adjustments.length 0) ∧
      (∀ i, i < (SystemViewState.mk [100, 200]).bytes_available.length →
        Int.ModEq (2 ^ 64)
          (((UpdateGlobalSystemViewState ⟨[-5, 0]⟩
                ⟨[100, 200]⟩).2.bytes_available.getD i 0 : Int)
            + (UpdateGlobalSystemViewState ⟨[-5, 0]⟩
                ⟨[100, 200]⟩).1.capacity_adjustments.getD i 0)
          (((SystemViewState.mk [100, 200]).bytes_available.getD i 0 : Int)
            + (BufferPoolView.mk [-5, 0]).capacity_adjustments.getD i 0)) ∧
      ((∀ a ∈ (BufferPoolView.mk [-5, 0]).capacity_adjustments, a = 0) →
        (UpdateGlobalSystemViewState ⟨[-5, 0]⟩ ⟨[100, 200]⟩).2
          = ⟨[100, 200]⟩)) :=
  ⟨rfl, C9_system_view_update ⟨[-5, 0]⟩ ⟨[100, 200]⟩ rfl⟩

/-! ## C6: destruction respects the ref-count -/

/-- C6: on a valid handle whose bucket still has a positive ref-count,
`Bucket::Destroy` reports `BUCKET_IN_USE` and returns the handle and the
entire metadata state unchanged (id, name mapping and blob list included,
and the handle stays valid); with a zero ref-count the destruction
succeeds and the handle id is nulled. -/
theorem C6_destroy_requires_zero_refcount (b : Bucket)
    (mdm : MetadataManager) (hvalid : b.IsValid = true) :
    (0 < refCountOf mdm b.id →
      b.Destroy mdm = (b, mdm, Status.BucketInUse)) ∧
    (refCountOf mdm b.id = 0 →
      (b.Destroy mdm).2.2 = Status.Success ∧
      (b.Destroy mdm).1 = ⟨b.name, nullBucketId⟩) := by
  constructor
  · intro hpos
    have hd : DestroyBucket mdm b.name b.id = (mdm, false) := by
      simp only [DestroyBucket, LocalDestroyBucket]
      rw [if_pos (show 0 < (LocalGetBucketInfoByIndex mdm b.id.index).ref_count
        from hpos)]
    simp [Bucket.Destroy, hvalid, hd]
  · intro hzero
    have h0 : (LocalGetBucketInfoByIndex mdm b.id.index).ref_count = 0 := hzero
    have hd : (DestroyBucket mdm b.name b.id).2 = true := by
      simp only [DestroyBucket, LocalDestroyBucket]
      rw [if_neg (by omega)]
    constructor
    · simp [Bucket.Destroy, hvalid, hd]
    · simp [Bucket.Destroy, hvalid, hd]

/-- C6 witness: a single-slot node holding bucket id `{node 1, index 0}`
with ref-count 2 (in-use case) and the same slot with ref-count 0
(destroyable case). -/
theorem C6_destroy_requires_zero_refcount_witness :
    ((Bucket.mk "b" ⟨1, 0⟩).IsValid = true ∧
      (0 < refCountOf ⟨[("b", BucketID.asInt ⟨1, 0⟩)],
          [⟨[], 2, true, nullBucketId⟩], nullBucketId, 1, 1⟩ ⟨1, 0⟩ →
        (Bucket.mk "b" ⟨1, 0⟩).Destroy
            ⟨[("b", BucketID.asInt ⟨1, 0⟩)],
              [⟨[], 2, true, nullBucketId⟩], nullBucketId, 1, 1⟩
          = (⟨"b", ⟨1, 0⟩⟩,
              ⟨[("b", BucketID.asInt ⟨1, 0⟩)],
                [⟨[], 2, true, nullBucketId⟩], nullBucketId, 1, 1⟩,
              Status.BucketInUse))) ∧
    ((0 : Int) < refCountOf ⟨[("b", BucketID.asInt ⟨1, 0⟩)],
        [⟨[], 2, true, nullBucketId⟩], nullBucketId, 1, 1⟩ ⟨1, 0⟩) :=
  ⟨⟨rfl, (C6_destroy_requires_zero_refcount ⟨"b", ⟨1, 0⟩⟩
      ⟨[("b", BucketID.asInt ⟨1, 0⟩)], [⟨[], 2, true, nullBucketId⟩],
        nullBucketId, 1, 1⟩ rfl).1⟩, by decide⟩

/-! ## C10: Close decrements once and is then a no-op -/

/-- C10: `Bucket::Close` on a valid handle decrements the bucket's
ref-count by exactly one and nulls the handle id; the resulting handle is
invalid, so a second `Close` (including a `Close` after a successful
`Destroy`, which also nulls the id) is a no-op returning handle and
metadata state unchanged; `Close` on any invalid handle changes
nothing. -/
theorem C10_close_decrements_once (b : Bucket) (mdm : MetadataManager)
    (hvalid : b.IsValid = true)
    (hidx : b.id.index < mdm.bucketInfo.length) :
    refCountOf (b.Close mdm).2 b.id = refCountOf mdm b.id - 1 ∧
    (b.Close mdm).1.IsValid = false ∧
    (b.Close mdm).1.Close (b.Close mdm).2 = b.Close mdm ∧
    (∀ (b' : Bucket) (m : MetadataManager),
      b'.IsValid = false → b'.Close m = (b', m)) := by
  have hclose : b.Close mdm
      = (⟨b.name, nullBucketId⟩, DecrementRefcount mdm b.id) := by
    simp only [Bucket.Close, hvalid, if_true]
  have hnullinv : ∀ s : String, (Bucket.mk s nullBucketId).IsValid = false := by
    intro s
    simp [Bucket.IsValid, IsNullBucketId, nullBucketId, BucketID.asInt]
  have hcinv : ∀ (b' : Bucket) (m : MetadataManager),
      b'.IsValid = false → b'.Close m = (b', m) := by
    intro b' m hinv
    simp only [Bucket.Close, hinv, Bool.false_eq_true, if_false]
  refine ⟨?_, ?_, ?_, hcinv⟩
  · rw [hclose]
    simp only [DecrementRefcount, LocalDecrementRefcount, refCountOf,
      LocalGetBucketInfoByIndex]
    rw [List.getD_eq_getElem _ _ (by simpa using hidx),
      List.getElem_set_self _]
  · rw [hclose]
    exact hnullinv b.name
  · rw [hclose]
    exact hcinv _ _ (hnullinv b.name)

/-- C10 witness: closing the open handle on a single-slot node with
ref-count 1. -/
theorem C10_close_decrements_once_witness :
    ((Bucket.mk "b" ⟨1, 0⟩).IsValid = true ∧
      (BucketID.mk 1 0).index
        < (MetadataManager.mk [("b", BucketID.asInt ⟨1, 0⟩)]
            [⟨[], 1, true, nullBucketId⟩] nullBucketId 1 1).bucketInfo.length) ∧
    refCountOf ((Bucket.mk "b" ⟨1, 0⟩).Close
        ⟨[("b", BucketID.asInt ⟨1, 0⟩)], [⟨[], 1, true, nullBucketId⟩],
          nullBucketId, 1, 1⟩).2 ⟨1, 0⟩
      = refCountOf ⟨[("b", BucketID.asInt ⟨1, 0⟩)],
          [⟨[], 1, true, nullBucketId⟩], nullBucketId, 1, 1⟩ ⟨1, 0⟩ - 1 :=
  ⟨⟨rfl, by decide⟩,
    (C10_close_decrements_once ⟨"b", ⟨1, 0⟩⟩
      ⟨[("b", BucketID.asInt ⟨1, 0⟩)], [⟨[], 1, true, nullBucketId⟩],
        nullBucketId, 1, 1⟩ rfl (by decide)).1⟩

/-! ## Helper lemmas on the storage model -/

theorem GetFromStorage_put (m : List (String × Nat)) (k : String) (v : Nat) :
    GetFromStorage (PutToStorage m k v) k = v := by
  simp [GetFromStorage, PutToStorage, List.find?]

theorem GetFromStorage_put_ne (m : List (String × Nat)) (k k' : String)
    (v : Nat) (hne : k' ≠ k) :
    GetFromStorage (PutToStorage m k v) k' = GetFromStorage m k' := by
  simp [GetFromStorage, PutToStorage, List.find?, hne.symm]

theorem getD_set_self {α : Type} (l : List α) (i : Nat) (v d : α)
    (h : i < l.length) : (l.set i v).getD i d = v := by
  rw [List.getD_eq_getElem _ _ (by simpa using h), List.getElem_set_self _]

/-! ## C5: GetOrCreate returns the same id twice -/

/-- C5: while the slot pool has room (and the free list is sane), two
successive `LocalGetOrCreateBucketId` calls with the same absent name
return the same non-null `BucketID`: the first call allocates the free
slot with ref-count 1, the second finds the registered name and only
increments the ref-count to 2. -/
theorem C5_get_or_create_same_id (mdm : MetadataManager) (name : String)
    (habsent : GetFromStorage mdm.bucketMap name = 0)
    (hroom : mdm.num_buckets < mdm.max_buckets)
    (hff : IsNullBucketId mdm.first_free_bucket = false)
    (hidx : mdm.first_free_bucket.index < mdm.bucketInfo.length)
    (hn32 : mdm.first_free_bucket.node_id < 2 ^ 32)
    (hi32 : mdm.first_free_bucket.index < 2 ^ 32) :
    (LocalGetOrCreateBucketId mdm name).2 = mdm.first_free_bucket ∧
    (LocalGetOrCreateBucketId mdm name).2.asInt ≠ 0 ∧
    refCountOf (LocalGetOrCreateBucketId mdm name).1
      mdm.first_free_bucket = 1 ∧
    (LocalGetOrCreateBucketId
      (LocalGetOrCreateBucketId mdm name).1 name).2
      = mdm.first_free_bucket ∧
    refCountOf (LocalGetOrCreateBucketId
      (LocalGetOrCreateBucketId mdm name).1 name).1
      mdm.first_free_bucket = 2 := by
  have hne0 : mdm.first_free_bucket.asInt ≠ 0 := by
    simpa [IsNullBucketId] using hff
  have hofint0 : (BucketID.ofInt 0).asInt = 0 := rfl
  have hlookup : LocalGetBucketId mdm name = BucketID.ofInt 0 := by
    simp [LocalGetBucketId, habsent]
  have hcall1 : LocalGetOrCreateBucketId mdm name
      = LocalGetNextFreeBucketId mdm name := by
    simp only [LocalGetOrCreateBucketId, hlookup]
    rw [if_neg (by simp [hofint0])]
  have hinfo := LocalGetBucketInfoByIndex mdm mdm.first_free_bucket.index
  have hcreate : LocalGetNextFreeBucketId mdm name
      = ({ bucketMap := PutToStorage mdm.bucketMap name
              mdm.first_free_bucket.asInt
           bucketInfo := mdm.bucketInfo.set mdm.first_free_bucket.index
             { blobs := [], ref_count := 1, active := true,
               next_free := (LocalGetBucketInfoByIndex mdm
                 mdm.first_free_bucket.index).next_free }
           first_free_bucket := (LocalGetBucketInfoByIndex mdm
             mdm.first_free_bucket.index).next_free
           num_buckets := mdm.num_buckets + 1
           max_buckets := mdm.max_buckets },
         mdm.first_free_bucket) := by
    simp [LocalGetNextFreeBucketId, hroom, hff, LocalPutBucketId]
  rw [hcall1, hcreate]
  have hlen : (mdm.bucketInfo.set mdm.first_free_bucket.index
      { blobs := [], ref_count := 1, active := true,
        next_free := (LocalGetBucketInfoByIndex mdm
          mdm.first_free_bucket.index).next_free } : List BucketInfo).length
      = mdm.bucketInfo.length := by
    simp
  have hrc1 : refCountOf
      ({ bucketMap := PutToStorage mdm.bucketMap name
            mdm.first_free_bucket.asInt
         bucketInfo := mdm.bucketInfo.set mdm.first_free_bucket.index
           { blobs := [], ref_count := 1, active := true,
             next_free := (LocalGetBucketInfoByIndex mdm
               mdm.first_free_bucket.index).next_free }
         first_free_bucket := (LocalGetBucketInfoByIndex mdm
           mdm.first_free_bucket.index).next_free
         num_buckets := mdm.num_buckets + 1
         max_buckets := mdm.max_buckets } : MetadataManager)
      mdm.first_free_bucket = 1 := by
    simp only [refCountOf, LocalGetBucketInfoByIndex]
    rw [getD_set_self _ _ _ _ hidx]
  refine ⟨rfl, hne0, hrc1, ?_, ?_⟩
  · simp only [LocalGetOrCreateBucketId, LocalGetBucketId,
      GetFromStorage_put, BucketID.ofInt_asInt _ hn32 hi32]
    rw [if_pos hne0]
  · simp only [LocalGetOrCreateBucketId, LocalGetBucketId,
      GetFromStorage_put, BucketID.ofInt_asInt _ hn32 hi32]
    rw [if_pos hne0]
    simp only [refCountOf, LocalGetBucketInfoByIndex,
      LocalIncrementRefcount]
    rw [getD_set_self _ _ _ _ (by simpa using hidx)]
    have : ((mdm.bucketInfo.set mdm.first_free_bucket.index
        { blobs := [], ref_count := 1, active := true,
          next_free := (LocalGetBucketInfoByIndex mdm
            mdm.first_free_bucket.index).next_free }).getD
        mdm.first_free_bucket.index BucketInfo.zero).ref_count = 1 := by
      rw [getD_set_self _ _ _ _ hidx]
    simp only [LocalGetBucketInfoByIndex] at this ⊢
    rw [this]
    norm_num

/-- C5 witness: a freshly initialized single-node MDM with two slots and
the name "b". -/
theorem C5_get_or_create_same_id_witness :
    (GetFromStorage (InitMetadataManager 2 1).bucketMap "b" = 0 ∧
      (InitMetadataManager 2 1).num_buckets
        < (InitMetadataManager 2 1).max_buckets ∧
      IsNullBucketId (InitMetadataManager 2 1).first_free_bucket = false ∧
      (InitMetadataManager 2 1).first_free_bucket.index
        < (InitMetadataManager 2 1).bucketInfo.length ∧
      (InitMetadataManager 2 1).first_free_bucket.node_id < 2 ^ 32 ∧
      (InitMetadataManager 2 1).first_free_bucket.index < 2 ^ 32) ∧
    ((LocalGetOrCreateBucketId (InitMetadataManager 2 1) "b").2
        = (InitMetadataManager 2 1).first_free_bucket ∧
      (LocalGetOrCreateBucketId (InitMetadataManager 2 1) "b").2.asInt ≠ 0 ∧
      refCountOf (LocalGetOrCreateBucketId (InitMetadataManager 2 1) "b").1
        (InitMetadataManager 2 1).first_free_bucket = 1 ∧
      (LocalGetOrCreateBucketId
        (LocalGetOrCreateBucketId (InitMetadataManager 2 1) "b").1 "b").2
        = (InitMetadataManager 2 1).first_free_bucket ∧
      refCountOf (LocalGetOrCreateBucketId
        (LocalGetOrCreateBucketId (InitMetadataManager 2 1) "b").1 "b").1
        (InitMetadataManager 2 1).first_free_bucket = 2) :=
  ⟨⟨rfl, by decide, by decide, by decide, by decide, by decide⟩,
    C5_get_or_create_same_id (InitMetadataManager 2 1) "b" rfl (by decide)
      (by decide) (by decide) (by decide) (by decide)⟩

/-! ## C7: slot-pool exhaustion -/

theorem getD_range_map {α : Type} (nn : Nat) (f : Nat → α) (k : Nat) (d : α)
    (h : k < nn) : ((List.range nn).map f).getD k d = f k := by
  rw [List.getD_eq_getElem _ _ (by simpa using h)]
  simp

theorem set_range_map {α : Type} (nn : Nat) (f : Nat → α) (k : Nat) (v : α) :
    ((List.range nn).map f).set k v
      = (List.range nn).map (fun i => if i = k then v else f i) := by
  apply List.ext_getElem (by simp)
  intro i h1 h2
  rw [List.getElem_set _]
  simp only [List.getElem_map, List.getElem_range]
  by_cases hik : i = k
  · subst hik
    simp
  · rw [if_neg (fun h => hik h.symm), if_neg hik]

theorem ofInt_zero_asInt : (BucketID.ofInt 0).asInt = 0 := rfl

theorem createMany_length :
    ∀ (names : List String) (mdm : MetadataManager),
      (createMany mdm names).2.length = names.length := by
  intro names
  induction names with
  | nil => intro mdm; rfl
  | cons n rest ih => intro mdm; simp [createMany, ih]

theorem getOrCreate_midstate_step (maxB node k : Nat)
    (m : List (String × Nat)) (n : String)
    (hk : k < maxB) (hnode1 : 1 ≤ node) (hnode32 : node < 2 ^ 32)
    (hk32 : k < 2 ^ 32) (habs : GetFromStorage m n = 0) :
    LocalGetOrCreateBucketId (MidState maxB node k m) n
      = (MidState maxB node (k + 1)
          (PutToStorage m n (BucketID.asInt ⟨node, k⟩)),
         (⟨node, k⟩ : BucketID)) := by
  have hasint : (BucketID.mk node k).asInt = node * 2 ^ 32 + k := by
    simp only [BucketID.asInt]
    omega
  have hne : IsNullBucketId (BucketID.mk node k) = false := by
    simp only [IsNullBucketId, hasint]
    simp only [decide_eq_false_iff_not]
    omega
  have hlook : LocalGetBucketId (MidState maxB node k m) n
      = BucketID.ofInt 0 := by
    simp [LocalGetBucketId, MidState, habs]
  have hff : (MidState maxB node k m).first_free_bucket
      = ⟨node, k⟩ := by
    simp [MidState, hk]
  have hinfo : LocalGetBucketInfoByIndex (MidState maxB node k m) k
      = { blobs := [], ref_count := if k < k then 1 else 0,
          active := if k < k then true else false,
          next_free := if k = maxB - 1 then nullBucketId
            else ⟨node, k + 1⟩ } := by
    simp only [LocalGetBucketInfoByIndex, MidState]
    rw [getD_range_map _ _ _ _ hk]
  have harr : (((List.range maxB).map (fun i =>
      ({ blobs := []
         ref_count := if i < k then 1 else 0
         active := if i < k then true else false
         next_free := if i = maxB - 1 then nullBucketId
           else ⟨node, i + 1⟩ } : BucketInfo))).set k
        { blobs := [], ref_count := 1, active := true,
          next_free := if k = maxB - 1 then nullBucketId
            else ⟨node, k + 1⟩ })
      = (List.range maxB).map (fun i =>
        ({ blobs := []
           ref_count := if i < k + 1 then 1 else 0
           active := if i < k + 1 then true else false
           next_free := if i = maxB - 1 then nullBucketId
             else ⟨node, i + 1⟩ } : BucketInfo)) := by
    rw [set_range_map]
    apply List.map_congr_left
    intro i _
    by_cases hik : i = k
    · subst hik
      simp
    · have hiff : i < k + 1 ↔ i < k := by omega
      simp only [if_neg hik, hiff]
  have hffnew : (if k = maxB - 1 then nullBucketId
        else (⟨node, k + 1⟩ : BucketID))
      = (if k + 1 < maxB then (⟨node, k + 1⟩ : BucketID)
        else nullBucketId) := by
    split_ifs <;> first | rfl | (exfalso; omega)
  simp only [LocalGetOrCreateBucketId, hlook]
  rw [if_neg (by simp [ofInt_zero_asInt] : ¬(BucketID.ofInt 0).asInt ≠ 0)]
  simp only [LocalGetNextFreeBucketId, hff, hinfo]
  rw [if_pos (show (MidState maxB node k m).num_buckets
      < (MidState maxB node k m).max_buckets from hk)]
  rw [if_pos hne]
  simp only []
  rw [if_pos hne]
  simp only [LocalPutBucketId, MidState, Prod.mk.injEq,
    MetadataManager.mk.injEq, eq_self_iff_true, true_and, and_true]
  exact ⟨by simpa using harr, by simpa using hffnew⟩

theorem getOrCreate_midstate_full (maxB node : Nat)
    (m : List (String × Nat)) (n : String)
    (habs : GetFromStorage m n = 0) :
    LocalGetOrCreateBucketId (MidState maxB node maxB m) n
      = (MidState maxB node maxB m, nullBucketId) := by
  have hlook : LocalGetBucketId (MidState maxB node maxB m) n
      = BucketID.ofInt 0 := by
    simp [LocalGetBucketId, MidState, habs]
  simp only [LocalGetOrCreateBucketId, hlook]
  rw [if_neg (by simp [ofInt_zero_asInt] : ¬(BucketID.ofInt 0).asInt ≠ 0)]
  simp only [LocalGetNextFreeBucketId]
  rw [if_neg (show ¬(MidState maxB node maxB m).num_buckets
      < (MidState maxB node maxB m).max_buckets by simp [MidState])]
  rw [if_neg (by simp [IsNullBucketId, nullBucketId, BucketID.asInt])]

theorem createMany_midstate (maxB node : Nat) (hnode1 : 1 ≤ node)
    (hnode32 : node < 2 ^ 32) (hmax32 : maxB ≤ 2 ^ 32) :
    ∀ (names : List String) (k : Nat) (m : List (String × Nat)),
      k + names.length ≤ maxB → names.Nodup →
      (∀ n ∈ names, GetFromStorage m n = 0) →
      (∀ id ∈ (createMany (MidState maxB node k m) names).2,
        id.asInt ≠ 0) ∧
      ∃ m', (createMany (MidState maxB node k m) names).1
          = MidState maxB node (k + names.length) m' ∧
        ∀ x, x ∉ names → GetFromStorage m' x = GetFromStorage m x := by
  intro names
  induction names with
  | nil =>
    intro k m _ _ _
    exact ⟨by simp [createMany], m, by simp [createMany], fun x _ => rfl⟩
  | cons n rest ih =>
    intro k m hle hnd habs
    have hk : k < maxB := by
      simp only [List.length_cons] at hle
      omega
    have hk32 : k < 2 ^ 32 := by omega
    have hstep := getOrCreate_midstate_step maxB node k m n hk hnode1
      hnode32 hk32 (habs n (by simp))
    have hxnotn : ∀ x ∈ rest, x ≠ n := by
      intro x hx hxe
      exact (List.nodup_cons.mp hnd).1 (hxe ▸ hx)
    have hrest := ih (k + 1) (PutToStorage m n (BucketID.asInt ⟨node, k⟩))
      (by simp only [List.length_cons] at hle; omega)
      (List.Nodup.of_cons hnd)
      (fun x hx => by
        rw [GetFromStorage_put_ne m n x _ (hxnotn x hx)]
        exact habs x (by simp [hx]))
    obtain ⟨hids, m', hm', hpres⟩ := hrest
    constructor
    · intro id hid
      simp only [createMany, hstep] at hid
      rcases List.mem_cons.mp hid with h | h
      · subst h
        simp only [BucketID.asInt, Nat.mod_eq_of_lt hnode32,
          Nat.mod_eq_of_lt hk32]
        omega
      · exact hids id h
    · refine ⟨m', ?_, ?_⟩
      · simp only [createMany, hstep, List.length_cons]
        rw [hm', show k + 1 + rest.length = k + (rest.length + 1) by omega]
      · intro x hx
        have hxr : x ∉ rest := fun h => hx (by simp [h])
        have hxn : x ≠ n := fun h => hx (by simp [h])
        rw [hpres x hxr, GetFromStorage_put_ne m n x _ hxn]

/-- C7: from a freshly initialized node, creating `max_buckets_per_node`
buckets with distinct names succeeds — every returned `BucketID` is
non-null — and the next creation attempt finds the slot pool exhausted and
returns the null id while leaving the metadata state exactly as it was. -/
theorem C7_slot_pool_exhaustion (maxB node : Nat) (names : List String)
    (other : String) (hnode1 : 1 ≤ node) (hnode32 : node < 2 ^ 32)
    (hmax32 : maxB ≤ 2 ^ 32) (hlen : names.length = maxB)
    (hnd : names.Nodup) (hother : other ∉ names) :
    (∀ id ∈ (createMany (InitMetadataManager maxB node) names).2,
      id.asInt ≠ 0) ∧
    (createMany (InitMetadataManager maxB node) names).2.length = maxB ∧
    LocalGetOrCreateBucketId
        (createMany (InitMetadataManager maxB node) names).1 other
      = ((createMany (InitMetadataManager maxB node) names).1,
          nullBucketId) := by
  rcases Nat.eq_zero_or_pos maxB with hz | hpos
  · subst hz
    have hnil : names = [] := List.eq_nil_of_length_eq_zero hlen
    subst hnil
    refine ⟨by simp [createMany], rfl, ?_⟩
    have hlook : LocalGetBucketId (InitMetadataManager 0 node) other
        = BucketID.ofInt 0 := by
      simp [LocalGetBucketId, InitMetadataManager, GetFromStorage]
    simp only [createMany]
    simp only [LocalGetOrCreateBucketId, hlook]
    rw [if_neg (by simp [ofInt_zero_asInt] : ¬(BucketID.ofInt 0).asInt ≠ 0)]
    simp only [LocalGetNextFreeBucketId]
    rw [if_neg (show ¬(InitMetadataManager 0 node).num_buckets
        < (InitMetadataManager 0 node).max_buckets by
          simp [InitMetadataManager])]
    rw [if_neg (by simp [IsNullBucketId, nullBucketId, BucketID.asInt])]
  · have hinit : InitMetadataManager maxB node = MidState maxB node 0 [] := by
      simp only [InitMetadataManager, MidState, MetadataManager.mk.injEq,
        eq_self_iff_true, true_and, and_true]
      constructor
      · apply List.map_congr_left
        intro i _
        simp
      · rw [if_pos hpos]
    obtain ⟨hids, m', hm', hpres⟩ :=
      createMany_midstate maxB node hnode1 hnode32 hmax32 names 0 []
        (by omega) hnd (fun n _ => rfl)
    rw [hinit]
    refine ⟨hids, by rw [createMany_length, hlen], ?_⟩
    rw [hm', show 0 + names.length = maxB by omega]
    exact getOrCreate_midstate_full maxB node m' other
      (by rw [hpres other hother]; rfl)

/-- C7 witness: two slots on node 1, names "a" and "b", then "c" fails. -/
theorem C7_slot_pool_exhaustion_witness :
    ((1 : Nat) ≤ 1 ∧ (1 : Nat) < 2 ^ 32 ∧ (2 : Nat) ≤ 2 ^ 32 ∧
      (["a", "b"] : List String).length = 2 ∧
      (["a", "b"] : List String).Nodup ∧ "c" ∉ (["a", "b"] : List String)) ∧
    ((∀ id ∈ (createMany (InitMetadataManager 2 1) ["a", "b"]).2,
        id.asInt ≠ 0) ∧
      (createMany (InitMetadataManager 2 1) ["a", "b"]).2.length = 2 ∧
      LocalGetOrCreateBucketId
          (createMany (InitMetadataManager 2 1) ["a", "b"]).1 "c"
        = ((createMany (InitMetadataManager 2 1) ["a", "b"]).1,
            nullBucketId)) :=
  ⟨⟨by decide, by decide, by decide, rfl, by decide, by decide⟩,
    C7_slot_pool_exhaustion 2 1 ["a", "b"] "c" (by decide) (by decide)
      (by decide) rfl (by decide) (by decide)⟩

/-! ## C2: attach and name recovery -/

/-- C2 (failing evaluation): on a 3-node installation with the hash
function `String.length`, attaching blob "k" to bucket `{node 1, index 0}`
places the buffer-id list on node 2 (the hash owner of "k") and stamps
node 2 into the BlobID — as the claim states — but the name → id entry
(the only source of the reverse mapping) lands on node 3, the hash owner
of the *internal* name `hex(bucket) || "k"` (17 characters).
`GetBlobNameFromId` consults node 2, finds nothing, and returns the empty
string instead of "k".  On a single node the two hash owners coincide and
recovery works. -/
theorem C2_name_recovery_failure :
    (AttachBlobToBucket String.length
        ⟨[BlobNode.empty, BlobNode.empty, BlobNode.empty]⟩
        "k" ⟨1, 0⟩ [⟨5⟩] false).2.node_id = 2 ∧
    ((AttachBlobToBucket String.length
        ⟨[BlobNode.empty, BlobNode.empty, BlobNode.empty]⟩
        "k" ⟨1, 0⟩ [⟨5⟩] false).1.node 2).bufferIdLists = [[⟨5⟩]] ∧
    ((AttachBlobToBucket String.length
        ⟨[BlobNode.empty, BlobNode.empty, BlobNode.empty]⟩
        "k" ⟨1, 0⟩ [⟨5⟩] false).1.node 2).blobMap = [] ∧
    ((AttachBlobToBucket String.length
        ⟨[BlobNode.empty, BlobNode.empty, BlobNode.empty]⟩
        "k" ⟨1, 0⟩ [⟨5⟩] false).1.node 3).blobMap
      = [(MakeInternalBlobName "k" (BucketID.asInt ⟨1, 0⟩),
          BlobID.asInt ⟨2, 0⟩)] ∧
    GetBlobNameFromId
        (AttachBlobToBucket String.length
          ⟨[BlobNode.empty, BlobNode.empty, BlobNode.empty]⟩
          "k" ⟨1, 0⟩ [⟨5⟩] false).1
        (AttachBlobToBucket String.length
          ⟨[BlobNode.empty, BlobNode.empty, BlobNode.empty]⟩
          "k" ⟨1, 0⟩ [⟨5⟩] false).2 = "" ∧
    GetBlobNameFromId
        (AttachBlobToBucket String.length ⟨[BlobNode.empty]⟩
          "k" ⟨1, 0⟩ [⟨5⟩] false).1
        (AttachBlobToBucket String.length ⟨[BlobNode.empty]⟩
          "k" ⟨1, 0⟩ [⟨5⟩] false).2 = "k" :=
  ⟨rfl, rfl, rfl, rfl, rfl, rfl⟩

end Hermes
